import Mathlib

/-
Verification development for the polymarket-dash repository.

Shallow embedding of the ranking engine and the snapshot-chain logic of:
  - scripts/polymarket_enriched_fast.py  (rank_hot, rank_gems, the near50Flag
    feature pipeline of fast_enrich),
  - scripts/derive_top12_from_csv.py     (the HOT / OVERLOOKED buckets of main),
  - scripts/build_site_from_csv.py       (snapshot navigation links and the
    snapshot file write of main, build_nav_back_forward).

Modelling conventions:
  - Python floats are modelled as exact rationals (ℚ).
  - `math.log1p` is not rational, so it is carried as an explicit parameter
    `lg : ℚ → ℚ` of the Hot ranking; the source only uses it inside a sort key,
    so only its values under comparison matter, and every theorem below is
    stated for an arbitrary such parameter (strict monotonicity is the property
    the real `log1p` has).
  - A missing / unparseable optional numeric field is `none`.
  - Python `x or d` on numbers treats both `None` and `0.0` as falsy; `pyOr`
    reproduces that.  On optional string fields the falsy values are `None`
    and `""`, which the `Option String` model folds into `none`.
  - `sorted(key=k, reverse=True)` and `list.sort(key=k)` are stable sorts;
    they are modelled by `List.insertionSort` with the non-strict relation on
    keys, which is the stable sort (equal keys keep their original order).
-/

namespace PolyDash

/-- Python `x or d` for an optional number: `None` and `0.0` are falsy. -/
def pyOr (x : Option ℚ) (d : ℚ) : ℚ :=
  match x with
  | none => d
  | some v => if v = 0 then d else v

/-- Python `sorted(l, key=key, reverse=True)`: stable descending sort by key. -/
def sortDesc {α : Type} (key : α → ℚ) (l : List α) : List α :=
  l.insertionSort (fun a b => key b ≤ key a)

/-! ## scripts/polymarket_enriched_fast.py -/

/-- One normalized outcome quote as produced by `outcome_quotes_from_obj`. -/
structure Quote where
  name : String
  bestBid : Option ℚ
  bestAsk : Option ℚ
deriving DecidableEq

/-- Source `midpoint(bid, ask)` (line 216): `None` unless both sides are present. -/
def midpoint (bid ask : Option ℚ) : Option ℚ :=
  match bid, ask with
  | some b, some a => some ((b + a) / 2)
  | _, _ => none

/-- Source `is_binary(quotes)` (line 220). -/
def is_binary (quotes : List Quote) : Bool :=
  let usable := quotes.filter fun q => q.bestBid.isSome || q.bestAsk.isSome
  decide (usable.length ≤ 2) && decide (quotes.length ≤ 3)

/-- The `(q.get("name") or "").strip().lower() in ("yes","y","true")` test of
`fast_enrich` (line 402). -/
def isYesName (s : String) : Bool :=
  let n := s.trim.toLower
  n == "yes" || n == "y" || n == "true"

/-- The quote whose midpoint `fast_enrich` takes for a binary market
(lines 399-404): the first yes-named outcome, else the first quote, and only
when the market is binary and there is at least one quote. -/
def yes_target (quotes : List Quote) : Option Quote :=
  if quotes.isEmpty || !(is_binary quotes) then none
  else (quotes.find? fun q => isYesName q.name).orElse fun _ => quotes.head?

/-- Source `binary_mid_yes` of `fast_enrich` (lines 398-406): midpoint of the target
quote, requiring both best bid and best ask. -/
def binary_mid_yes (quotes : List Quote) : Option ℚ :=
  match yes_target quotes with
  | some q => midpoint q.bestBid q.bestAsk
  | none => none

/-- Source `near50Flag` of the enriched record (line 444):
`1 if (binary_mid_yes is not None and 0.40 <= binary_mid_yes <= 0.60) else 0`. -/
def near50Flag (quotes : List Quote) : ℕ :=
  match binary_mid_yes quotes with
  | some m => if 2/5 ≤ m ∧ m ≤ 3/5 then 1 else 0
  | none => 0

/-- An enriched market record (the fields consulted by `rank_hot` and
`rank_gems`).  `id` is the `mid` string used as the record identity. -/
structure ERow where
  id : String
  volume : Option ℚ
  volume24h : Option ℚ
  avgSpread : Option ℚ
  underround : Option ℚ
  near50Flag : ℚ
  timeToResolveDays : Option ℚ
  outcomeCount : ℕ
deriving DecidableEq

/-- The sort key of `rank_hot` (lines 454-462), with `math.log1p` abstracted
as the parameter `lg`. -/
def hotKey (lg : ℚ → ℚ) (r : ERow) : ℚ :=
  let vol : ℚ := pyOr r.volume24h (pyOr r.volume 0)
  let spread_component : ℚ :=
    match r.avgSpread with
    | some s => if 0 ≤ s then 1 / (1 + s * 100) else 1/2
    | none => 1/2
  let ttr_component : ℚ := 1 / (1 + (pyOr r.timeToResolveDays 365) / 30)
  lg vol * (13/10) + spread_component * 2 + ttr_component * (12/10)

/-- Source `rank_hot(rows)` (lines 452-463). -/
def rank_hot (lg : ℚ → ℚ) (rows : List ERow) : List ERow :=
  (sortDesc (hotKey lg) rows).take 12

/-- The sort key of `rank_gems` (lines 467-479). -/
def gemsKey (r : ERow) : ℚ :=
  let vol24 : ℚ := pyOr r.volume24h 0
  let near50 : ℚ := r.near50Flag
  let ttr : ℚ := pyOr r.timeToResolveDays 365
  let vol_penalty : ℚ := if 200000 < vol24 then -1 else if vol24 < 1500 then -(2/5) else 0
  let under_bonus : ℚ :=
    match r.underround with
    | some u => min (3/5) (max (-1) (-u * (11/5)))
    | none => 0
  let ttr_bonus : ℚ := 1 / (1 + ttr / 45)
  near50 * (11/5) + under_bonus + ttr_bonus + vol_penalty

/-- Source `candidates` of `rank_gems` (line 481). -/
def candidatesE (rows : List ERow) : List ERow :=
  rows.filter fun r => decide (0 ≤ pyOr r.volume24h 0)

/-- Source `with_quotes` of `rank_gems` (line 482). -/
def withQuotesE (rows : List ERow) : List ERow :=
  (candidatesE rows).filter fun r => decide (0 < r.outcomeCount)

/-- Source `pool` of `rank_gems` (line 483): candidates narrowed to those with
quotes, when any exist. -/
def poolE (rows : List ERow) : List ERow :=
  if (withQuotesE rows).isEmpty then candidatesE rows else withQuotesE rows

/-- Source `pool_mod` of `rank_gems` (line 484): the moderate 24h-volume band. -/
def poolModE (rows : List ERow) : List ERow :=
  (poolE rows).filter fun r =>
    decide (1500 ≤ pyOr r.volume24h 0) && decide (pyOr r.volume24h 0 ≤ 200000)

/-- The pool `rank_gems` finally sorts (lines 481-485): the moderate-volume
band when it is non-empty, else the wider pool. -/
def gemsPool (rows : List ERow) : List ERow :=
  if (poolModE rows).isEmpty then poolE rows else poolModE rows

/-- Source `rank_gems(rows)` (lines 465-487). -/
def rank_gems (rows : List ERow) : List ERow :=
  (sortDesc gemsKey (gemsPool rows)).take 12

/-- The records of `rows` whose identity does not occur in the Hot list:
the "non-Hot candidates" of the specification, for the
`polymarket_enriched_fast.py` engine. -/
def nonHotE (lg : ℚ → ℚ) (rows : List ERow) : List ERow :=
  rows.filter fun r => decide (r.id ∉ (rank_hot lg rows).map ERow.id)

/-! ## scripts/derive_top12_from_csv.py -/

/-- A row of the enriched CSV as read back by `derive_top12_from_csv.py`
(the fields its `main` consults).  `oid` stands for the per-object `id(r)`
token Python uses as the last-resort identity. -/
structure DRow where
  id : Option String
  slug : Option String
  url : Option String
  question : Option String
  oid : ℕ
  volume24h : Option ℚ
  volume : Option ℚ
  near50Flag : Option ℚ
  underround : Option ℚ
  timeToResolveDays : Option ℚ
deriving DecidableEq

/-- Source `str(r.get("id") or r.get("slug") or r.get("url") or r.get("question") or id(r))`
(lines 76 and 79). -/
def rowKey (r : DRow) : String :=
  match (((r.id.orElse fun _ => r.slug).orElse fun _ => r.url).orElse fun _ => r.question) with
  | some s => s
  | none => "pyobj-" ++ toString r.oid

/-- Source `vol24(row)` (lines 49-54): `volume24h or vol24h or volume`, default 0
(the enriched CSV has no `vol24h` column). -/
def vol24d (r : DRow) : ℚ :=
  ((r.volume24h.orElse fun _ => r.volume)).getD 0

/-- Source `ttr_days(row)` (lines 38-47): missing treated as the large sentinel 9e9. -/
def ttr_days (r : DRow) : ℚ :=
  r.timeToResolveDays.getD 9000000000

/-- Source `fnum(row, "near50Flag", 0.0)` (line 82). -/
def near50d (r : DRow) : ℚ :=
  r.near50Flag.getD 0

/-- Source `fnum(row, "underround", 0.0)` (line 83). -/
def underd (r : DRow) : ℚ :=
  r.underround.getD 0

/-- The ascending order `hot_scored.sort(key=lambda x: (-x[0], x[1]))`
(line 72): by volume descending, then time-to-resolve ascending. -/
def hotLe (a b : DRow) : Prop :=
  vol24d b < vol24d a ∨ (vol24d a = vol24d b ∧ ttr_days a ≤ ttr_days b)

instance : DecidableRel hotLe := fun a b =>
  inferInstanceAs (Decidable (vol24d b < vol24d a ∨ (vol24d a = vol24d b ∧ ttr_days a ≤ ttr_days b)))

/-- Source `hot_rows` (lines 71-73): top 12 by the hot order. -/
def hot_rows (rows : List DRow) : List DRow :=
  (rows.insertionSort hotLe).take 12

/-- Source `hot_ids` (line 76). -/
def hot_ids (rows : List DRow) : List String :=
  (hot_rows rows).map rowKey

/-- The OVERLOOKED candidate pool (lines 77-84): every row whose identity is
not a HOT identity. -/
def pool (rows : List DRow) : List DRow :=
  rows.filter fun r => decide (rowKey r ∉ hot_ids rows)

/-- The ascending order `pool.sort(key=lambda x: (-x[0], x[1], x[2]))`
(line 85): near-50 flag descending, then underround ascending, then
time-to-resolve ascending. -/
def poolLe (a b : DRow) : Prop :=
  near50d b < near50d a ∨
    (near50d a = near50d b ∧
      (underd a < underd b ∨ (underd a = underd b ∧ ttr_days a ≤ ttr_days b)))

instance : DecidableRel poolLe := fun a b =>
  inferInstanceAs (Decidable (near50d b < near50d a ∨
    (near50d a = near50d b ∧
      (underd a < underd b ∨ (underd a = underd b ∧ ttr_days a ≤ ttr_days b)))))

/-- The backfill loop (lines 89-96): append rows while fewer than 12, skipping
HOT identities and rows already picked. -/
def backfill (hotIds : List String) : List DRow → List DRow → List DRow
  | gems, [] => gems
  | gems, r :: rest =>
    if 12 ≤ gems.length then gems
    else if rowKey r ∈ hotIds ∨ r ∈ gems then backfill hotIds gems rest
    else backfill hotIds (gems ++ [r]) rest

/-- Source `gems_rows` (lines 86-96): first 12 of the sorted pool, then the backfill
loop when fewer than 12 were taken. -/
def gems_rows (rows : List DRow) : List DRow :=
  if (((pool rows).insertionSort poolLe).take 12).length < 12 then
    backfill (hot_ids rows) (((pool rows).insertionSort poolLe).take 12)
      (((pool rows).insertionSort poolLe).drop 12)
  else ((pool rows).insertionSort poolLe).take 12

/-! ## scripts/build_site_from_csv.py -/

/-- The archive-root sentinel target. -/
def ARCHIVE_ROOT : String := "archive.html"

/-- The live-root sentinel target. -/
def LIVE_ROOT : String := "index.html"

/-- The Back / Forward targets of one rendered navigation row.  A hidden
button (falsy href in the source) is `none`. -/
structure NavLinks where
  olderHref : Option String
  newerHref : Option String
deriving DecidableEq

/-- Source `build_nav_back_forward(page_type, back_href, fwd_href)` (lines 254-260):
on the index page the Forward link is forced off. -/
def build_nav_back_forward (page_type : String) (back fwd : Option String) : NavLinks :=
  ⟨back, if page_type = "index" then none else fwd⟩

/-- The navigation of the live (index) page (lines 547-549): Back is the last
existing snapshot, or hidden when there is none; no Forward. -/
def index_nav (snaps : List String) : NavLinks :=
  build_nav_back_forward "index" snaps.getLast? none

/-- The navigation baked into a snapshot page at its creation
(lines 588-590): Back is the last previously existing snapshot, or the
archive root when there is none; Forward is always the live root. -/
def snapshot_nav (prev : List String) : NavLinks :=
  build_nav_back_forward "snapshot" (some ((prev.getLast?).getD ARCHIVE_ROOT)) (some LIVE_ROOT)

/-- Successive build runs, starting from the existing snapshots `prev`:
each run appends a snapshot whose links are computed from the chain as it was
when the snapshot was created; old snapshots are never rewritten. -/
def buildChainFrom : List String → List String → List (String × NavLinks)
  | _, [] => []
  | prev, k :: ks => (k, snapshot_nav prev) :: buildChainFrom (prev ++ [k]) ks

/-- The snapshot chain produced by a sequence of build runs on an initially
empty site. -/
def buildChain (keys : List String) : List (String × NavLinks) :=
  buildChainFrom [] keys

/-- The navigation links stored for a chain member. -/
def linksFor (chain : List (String × NavLinks)) (k : String) : Option NavLinks :=
  (chain.find? fun e => e.1 == k).map fun e => e.2

/-- Source `Path.write_text` on a directory modelled as an association list: the
write creates the file or silently replaces its content. -/
def writeText : List (String × String) → String → String → List (String × String)
  | [], name, content => [(name, content)]
  | (n, c) :: rest, name, content =>
    if n = name then (n, content) :: rest else (n, c) :: writeText rest name content

/-- Reading a file of the modelled site directory. -/
def readFile : List (String × String) → String → Option String
  | [], _ => none
  | (n, c) :: rest, name => if n = name then some c else readFile rest name

/-- The snapshot-page creation of `main` (lines 579-619):
`(SITE_DIR / snap_name).write_text(...)` — an unconditional write. -/
def appendSnapshot (site : List (String × String)) (key content : String) :
    List (String × String) :=
  writeText site key content

/-! ## Concrete inputs used by counterexamples and witnesses -/

/-- A single enriched record with quotes and moderate 24h volume. -/
def r0 : ERow :=
  ⟨"mkt-1", none, some 50000, none, none, 0, none, 2⟩

/-- Snapshot keys of three successive build runs. -/
def kd0 : String := "dashboard_2025-01-01_0000.html"

def kd1 : String := "dashboard_2025-01-01_0600.html"

def kd2 : String := "dashboard_2025-01-01_1200.html"

/-- A site directory already holding a snapshot under key `kd0`. -/
def site0 : List (String × String) := [(kd0, "old")]

/-- A CSV row of `derive_top12_from_csv.py` with an id, a 24h volume and a
near-50 flag (all other fields absent). -/
def dRow (s : String) (v n : ℚ) : DRow :=
  ⟨some s, none, none, none, 0, some v, none, some n, none, none⟩

/-- Thirteen rows with strictly decreasing 24h volume: the first twelve become
HOT, the thirteenth is the only OVERLOOKED candidate. -/
def rows13 : List DRow :=
  [dRow "a01" 130 0, dRow "a02" 120 0, dRow "a03" 110 0, dRow "a04" 100 0,
   dRow "a05" 90 0, dRow "a06" 80 0, dRow "a07" 70 0, dRow "a08" 60 0,
   dRow "a09" 50 0, dRow "a10" 40 0, dRow "a11" 30 0, dRow "a12" 20 0,
   dRow "a13" 10 0]

/-- Twenty-four rows: twelve high-volume rows that become HOT, then three
near-50 candidates and nine further candidates. -/
def rows24 : List DRow :=
  [dRow "b01" 1012 0, dRow "b02" 1011 0, dRow "b03" 1010 0, dRow "b04" 1009 0,
   dRow "b05" 1008 0, dRow "b06" 1007 0, dRow "b07" 1006 0, dRow "b08" 1005 0,
   dRow "b09" 1004 0, dRow "b10" 1003 0, dRow "b11" 1002 0, dRow "b12" 1001 0,
   dRow "n1" 50 1, dRow "n2" 50 1, dRow "n3" 50 1,
   dRow "p1" 50 0, dRow "p2" 50 0, dRow "p3" 50 0, dRow "p4" 50 0,
   dRow "p5" 50 0, dRow "p6" 50 0, dRow "p7" 50 0, dRow "p8" 50 0,
   dRow "p9" 50 0]

/-- An enriched row that will be ranked HOT: tight spread and soon-to-resolve. -/
def hRow (s : String) : ERow :=
  ⟨s, none, some 50000, some 0, none, 0, some 1, 2⟩

/-- A near-50 enriched row: flag set, bad underround, no resolution date. -/
def nRow (s : String) : ERow :=
  ⟨s, none, some 50000, none, some (1/2), 1, none, 2⟩

/-- A moderate-volume enriched row with favorable underround, not near 50. -/
def mRow (s : String) : ERow :=
  ⟨s, none, some 50000, none, some (-3/11), 0, some 1, 2⟩

/-- Thirty-five enriched records: twelve that get ranked HOT, three near-50
candidates, and twenty further moderate-volume candidates. -/
def rows35 : List ERow :=
  [hRow "h01", hRow "h02", hRow "h03", hRow "h04", hRow "h05", hRow "h06",
   hRow "h07", hRow "h08", hRow "h09", hRow "h10", hRow "h11", hRow "h12",
   nRow "n1", nRow "n2", nRow "n3",
   mRow "m01", mRow "m02", mRow "m03", mRow "m04", mRow "m05", mRow "m06",
   mRow "m07", mRow "m08", mRow "m09", mRow "m10", mRow "m11", mRow "m12",
   mRow "m13", mRow "m14", mRow "m15", mRow "m16", mRow "m17", mRow "m18",
   mRow "m19", mRow "m20"]

/-! ## Helper lemmas -/

theorem backfill_nil (hotIds : List String) (gems : List DRow) :
    backfill hotIds gems [] = gems := rfl

theorem backfill_mem (hotIds : List String) :
    ∀ (rest gems : List DRow) (g : DRow), g ∈ backfill hotIds gems rest →
      g ∈ gems ∨ (g ∈ rest ∧ rowKey g ∉ hotIds)
  | [], _, _, h => Or.inl h
  | r :: rest, gems, g, h => by
    rw [backfill] at h
    split_ifs at h with h1 h2
    · exact Or.inl h
    · rcases backfill_mem hotIds rest gems g h with h' | ⟨hg, hk⟩
      · exact Or.inl h'
      · exact Or.inr ⟨List.mem_cons_of_mem _ hg, hk⟩
    · rcases backfill_mem hotIds rest (gems ++ [r]) g h with h' | ⟨hg, hk⟩
      · rcases List.mem_append.mp h' with h'' | h''
        · exact Or.inl h''
        · have hgr : g = r := by simpa using h''
          subst hgr
          exact Or.inr ⟨List.mem_cons_self _ _, fun hc => h2 (Or.inl hc)⟩
      · exact Or.inr ⟨List.mem_cons_of_mem _ hg, hk⟩

theorem gems_rows_length (rows : List DRow) :
    (gems_rows rows).length = min 12 (pool rows).length := by
  rw [gems_rows]
  have hlen : ((pool rows).insertionSort poolLe).length = (pool rows).length :=
    List.length_insertionSort _ _
  rcases le_or_lt 12 (pool rows).length with h | h
  · have ht : (((pool rows).insertionSort poolLe).take 12).length = 12 := by
      rw [List.length_take, hlen]
      omega
    rw [if_neg (by omega), ht, Nat.min_eq_left h]
  · have ht : ((pool rows).insertionSort poolLe).take 12 = (pool rows).insertionSort poolLe :=
      List.take_of_length_le (by omega)
    have hd : ((pool rows).insertionSort poolLe).drop 12 = [] :=
      List.drop_eq_nil_of_le (by omega)
    rw [if_pos (by rw [ht]; omega), ht, hd, backfill_nil, hlen, Nat.min_eq_right (le_of_lt h)]

theorem mem_pool_not_hot {rows : List DRow} {x : DRow} (hx : x ∈ pool rows) :
    rowKey x ∉ hot_ids rows := by
  have := (List.mem_filter.mp hx).2
  simpa using this

theorem mem_gemsPool_withQuotes {rows : List ERow} {x : ERow}
    (hwq : ¬((withQuotesE rows).isEmpty = true)) (hx : x ∈ gemsPool rows) :
    x ∈ withQuotesE rows := by
  have hpoolE : ∀ y ∈ poolE rows, y ∈ withQuotesE rows := by
    intro y hy
    rw [poolE, if_neg hwq] at hy
    exact hy
  rw [gemsPool] at hx
  by_cases hm : (poolModE rows).isEmpty = true
  · rw [if_pos hm] at hx
    exact hpoolE x hx
  · rw [if_neg hm] at hx
    exact hpoolE x (List.mem_filter.mp hx).1

/-- In a list sorted by a total relation, if the elements satisfying `P`
strictly precede the rest, the list splits as the `P` part followed by the
rest. -/
theorem sorted_split {α : Type} {r : α → α → Prop} (P : α → Bool) {l : List α}
    (hs : l.Sorted r)
    (hsep : ∀ x ∈ l, ∀ y ∈ l, P x = true → P y = false → ¬r y x) :
    l = l.filter P ++ l.filter (fun a => !(P a)) := by
  induction l with
  | nil => rfl
  | cons a tl ih =>
    rcases List.sorted_cons.mp hs with ⟨hrel, hstl⟩
    by_cases hPa : P a = true
    · have htl := ih hstl (fun x hx y hy hPx hPy =>
        hsep x (List.mem_cons_of_mem _ hx) y (List.mem_cons_of_mem _ hy) hPx hPy)
      simp only [List.filter_cons, hPa, if_true, Bool.not_true, if_false]
      rw [List.cons_append]
      exact congrArg (a :: ·) htl
    · have hPa' : P a = false := by
        cases hpa2 : P a
        · rfl
        · exact absurd hpa2 hPa
      have htlP : ∀ b ∈ tl, P b = false := by
        intro b hb
        cases hpb : P b
        · rfl
        · exact absurd (hrel b hb)
            (hsep b (List.mem_cons_of_mem _ hb) a (List.mem_cons_self _ _) hpb hPa')
      have hfilP : tl.filter P = [] := by
        rw [List.filter_eq_nil_iff]
        intro b hb
        rw [htlP b hb]
        exact Bool.false_ne_true
      have hfilN : tl.filter (fun a => !(P a)) = tl := by
        rw [List.filter_eq_self]
        intro b hb
        rw [htlP b hb]
        rfl
      simp only [List.filter_cons, hPa', Bool.not_false, if_true, hfilP, hfilN]
      rw [if_neg (by simp), List.nil_append]

theorem poolLe_total : ∀ a b : DRow, poolLe a b ∨ poolLe b a := by
  intro a b
  rw [poolLe, poolLe]
  rcases lt_trichotomy (near50d a) (near50d b) with h | h | h
  · exact Or.inr (Or.inl h)
  · rcases lt_trichotomy (underd a) (underd b) with h2 | h2 | h2
    · exact Or.inl (Or.inr ⟨h, Or.inl h2⟩)
    · rcases le_total (ttr_days a) (ttr_days b) with h3 | h3
      · exact Or.inl (Or.inr ⟨h, Or.inr ⟨h2, h3⟩⟩)
      · exact Or.inr (Or.inr ⟨h.symm, Or.inr ⟨h2.symm, h3⟩⟩)
    · exact Or.inr (Or.inr ⟨h.symm, Or.inl h2⟩)
  · exact Or.inl (Or.inl h)

instance : IsTotal DRow poolLe := ⟨poolLe_total⟩

theorem poolLe_trans : ∀ a b c : DRow, poolLe a b → poolLe b c → poolLe a c := by
  intro a b c hab hbc
  rw [poolLe] at hab hbc ⊢
  rcases hab with h1 | ⟨h1, h1'⟩
  · rcases hbc with h2 | ⟨h2, _⟩
    · exact Or.inl (lt_trans h2 h1)
    · exact Or.inl (h2 ▸ h1)
  · rcases hbc with h2 | ⟨h2, h2'⟩
    · exact Or.inl (by rw [h1]; exact h2)
    · refine Or.inr ⟨h1.trans h2, ?_⟩
      rcases h1' with h3 | ⟨h3, h3'⟩
      · rcases h2' with h4 | ⟨h4, _⟩
        · exact Or.inl (lt_trans h3 h4)
        · exact Or.inl (h4 ▸ h3)
      · rcases h2' with h4 | ⟨h4, h4'⟩
        · exact Or.inl (by rw [h3]; exact h4)
        · exact Or.inr ⟨h3.trans h4, h3'.trans h4'⟩

instance : IsTrans DRow poolLe := ⟨poolLe_trans⟩

theorem buildChainFrom_get (prev keys : List String) (j : ℕ) (hj : j < keys.length) :
    (buildChainFrom prev keys)[j]? =
      (keys[j]?).map fun k => (k, snapshot_nav (prev ++ keys.take j)) := by
  induction keys generalizing prev j with
  | nil => simp at hj
  | cons k ks ih =>
    cases j with
    | zero => simp [buildChainFrom]
    | succ j =>
      have hj' : j < ks.length := by simpa using hj
      have := ih (prev ++ [k]) j hj'
      simp only [buildChainFrom, List.getElem?_cons_succ, this, List.take_succ_cons,
        List.append_assoc, List.singleton_append]

/-! ## Claims -/

/-- Claim C8: on the empty record collection both ranking operations of
`polymarket_enriched_fast.py` and both buckets of `derive_top12_from_csv.py`
return empty lists; the operations are total, so no error condition arises. -/
theorem claim_C8 :
    (∀ lg : ℚ → ℚ, rank_hot lg [] = []) ∧ rank_gems [] = [] ∧
      hot_rows [] = [] ∧ gems_rows [] = [] :=
  ⟨fun _ => rfl, rfl, rfl, rfl⟩

/-- Claim C9: for every input collection, `rank_hot` and `rank_gems` (and the
HOT / OVERLOOKED buckets of `derive_top12_from_csv.py`) return at most 12
records. -/
theorem claim_C9 :
    (∀ (lg : ℚ → ℚ) (rows : List ERow), (rank_hot lg rows).length ≤ 12) ∧
    (∀ rows : List ERow, (rank_gems rows).length ≤ 12) ∧
    (∀ rows : List DRow, (hot_rows rows).length ≤ 12) ∧
    (∀ rows : List DRow, (gems_rows rows).length ≤ 12) := by
  refine ⟨fun lg rows => ?_, fun rows => ?_, fun rows => ?_, fun rows => ?_⟩
  · rw [rank_hot, List.length_take]
    exact min_le_left _ _
  · rw [rank_gems, List.length_take]
    exact min_le_left _ _
  · rw [hot_rows, List.length_take]
    exact min_le_left _ _
  · rw [gems_rows_length]
    exact min_le_left _ _

/-- Claim C2, counterexample: writing a snapshot page under an already-used
timestamp key silently replaces the stored content — no conflict is surfaced
and the old snapshot is lost. -/
theorem claim_C2_counterexample :
    readFile (appendSnapshot site0 kd0 "new") kd0 = some "new" ∧
      readFile site0 kd0 = some "old" ∧ ("new" : String) ≠ "old" := by
  refine ⟨?_, ?_, by simp⟩
  · simp [site0, appendSnapshot, writeText, readFile]
  · simp [site0, readFile]

/-- Claim C2, amended: the snapshot write is last-write-wins — after
`appendSnapshot` the key holds the new content (a colliding key is silently
overwritten, no `ChainConflict` is reported), and every other key is
untouched. -/
theorem claim_C2_amended (site : List (String × String)) (k c : String) :
    readFile (appendSnapshot site k c) k = some c ∧
      ∀ k', k' ≠ k → readFile (appendSnapshot site k c) k' = readFile site k' := by
  rw [appendSnapshot]
  induction site with
  | nil =>
    refine ⟨by simp [writeText, readFile], fun k' hk' => ?_⟩
    simp only [writeText, readFile]
    rw [if_neg (fun h => hk' h.symm)]
  | cons p rest ih =>
    obtain ⟨n, cn⟩ := p
    by_cases hn : n = k
    · subst hn
      refine ⟨?_, fun k' hk' => ?_⟩
      · simp [writeText, readFile]
      · simp only [writeText, if_pos rfl, readFile]
        rw [if_neg (fun h => hk' h.symm), if_neg (fun h => hk' h.symm)]
    · refine ⟨?_, fun k' hk' => ?_⟩
      · simp only [writeText, if_neg hn, readFile]
        exact ih.1
      · simp only [writeText, if_neg hn, readFile]
        by_cases hnk : n = k'
        · rw [if_pos hnk, if_pos hnk]
        · rw [if_neg hnk, if_neg hnk]
          exact ih.2 k' hk'

/-- Claim C2, witness for the amended statement at a concrete site. -/
theorem claim_C2_amended_witness :
    readFile (appendSnapshot site0 kd0 "new") kd0 = some "new" ∧
      readFile (appendSnapshot site0 kd0 "new") "other.html" = readFile site0 "other.html" :=
  ⟨(claim_C2_amended site0 kd0 "new").1,
   (claim_C2_amended site0 kd0 "new").2 "other.html" (by simp [kd0])⟩

/-- Claim C6, counterexample: with zero existing snapshots the live (index)
page gets no Back link at all (`None`, the button is hidden), not the
archive-root sentinel the claim requires. -/
theorem claim_C6_counterexample :
    index_nav [] = ⟨none, none⟩ ∧ (index_nav []).olderHref ≠ some ARCHIVE_ROOT := by
  refine ⟨rfl, ?_⟩
  simp [index_nav, build_nav_back_forward]

/-- Claim C6, amended: on an empty chain the live page has no older link and
no newer link (the Back button is hidden rather than pointing at the archive
root); on a non-empty chain its older link is the newest existing chain member
and it never has a newer link. -/
theorem claim_C6_amended :
    index_nav [] = ⟨none, none⟩ ∧
      ∀ (chain : List String) (h : chain ≠ []),
        index_nav chain = ⟨some (chain.getLast h), none⟩ := by
  refine ⟨rfl, fun chain h => ?_⟩
  simp [index_nav, build_nav_back_forward, List.getLast?_eq_getLast chain h]

/-- Claim C6, witness for the amended statement on a one-member chain. -/
theorem claim_C6_amended_witness :
    index_nav [kd0] = ⟨some kd0, none⟩ := by
  have h : ([kd0] : List String) ≠ [] := by simp
  have := claim_C6_amended.2 [kd0] h
  simpa using this

/-- Claim C3, counterexample: in the three-member chain built by successive
runs, the Forward link of the middle snapshot (newer) link is the live root
`index.html`, not the succeeding snapshot key — snapshots are never rewritten
to point at their successor. -/
theorem claim_C3_counterexample :
    linksFor (buildChain [kd0, kd1, kd2]) kd1 = some ⟨some kd0, some LIVE_ROOT⟩ ∧
      LIVE_ROOT ≠ kd2 := by
  refine ⟨?_, by simp [LIVE_ROOT, kd2]⟩
  simp [buildChain, buildChainFrom, linksFor, snapshot_nav, build_nav_back_forward,
    kd0, kd1, kd2, ARCHIVE_ROOT, LIVE_ROOT]

/-- Claim C3, amended: only the older-link half of double-consistency holds.
For every built chain and every valid position, the member at `i+1` has
`olderHref` equal to the key at `i`, but the member at `i` has `newerHref`
equal to the live-root sentinel `index.html`, never the key at `i+1`. -/
theorem claim_C3_amended (keys : List String) (i : ℕ) (h : i + 1 < keys.length) :
    ∃ e e' : String × NavLinks,
      (buildChain keys)[i]? = some e ∧ (buildChain keys)[i + 1]? = some e' ∧
        e.2.newerHref = some LIVE_ROOT ∧ e'.2.olderHref = keys[i]? := by
  have hi : i < keys.length := by omega
  have h0 := buildChainFrom_get [] keys i hi
  have h1 := buildChainFrom_get [] keys (i + 1) h
  rw [List.getElem?_eq_getElem hi] at h0
  rw [List.getElem?_eq_getElem h] at h1
  refine ⟨(keys[i], snapshot_nav ([] ++ keys.take i)),
    (keys[i + 1], snapshot_nav ([] ++ keys.take (i + 1))), ?_, ?_, ?_, ?_⟩
  · rw [buildChain, h0]
    rfl
  · rw [buildChain, h1]
    rfl
  · simp [snapshot_nav, build_nav_back_forward]
  · have hlast : (keys.take (i + 1)).getLast? = some keys[i] := by
      rw [List.getLast?_eq_getElem?]
      have hlen : (keys.take (i + 1)).length = i + 1 := by
        rw [List.length_take]
        omega
      rw [hlen]
      simp only [Nat.add_sub_cancel, List.getElem?_take]
      rw [if_pos (by omega), List.getElem?_eq_getElem hi]
    simp [snapshot_nav, build_nav_back_forward, hlast, List.getElem?_eq_getElem hi]

/-- Claim C3, witness for the amended statement on the concrete three-member
chain. -/
theorem claim_C3_amended_witness :
    ∃ e e' : String × NavLinks,
      (buildChain [kd0, kd1, kd2])[0]? = some e ∧
        (buildChain [kd0, kd1, kd2])[0 + 1]? = some e' ∧
        e.2.newerHref = some LIVE_ROOT ∧ e'.2.olderHref = [kd0, kd1, kd2][0]? :=
  claim_C3_amended [kd0, kd1, kd2] 0 (by simp)

/-- Claim C1, amended: disjointness by identity holds for
`derive_top12_from_csv.py` — no identity of the OVERLOOKED bucket is a HOT
identity; it does not hold for `rank_hot` / `rank_gems` of
`polymarket_enriched_fast.py`, which never excludes the Hot list (see the
counterexample). -/
theorem claim_C1_amended (rows : List DRow) :
    ∀ g ∈ gems_rows rows, rowKey g ∉ hot_ids rows := by
  intro g hg
  rw [gems_rows] at hg
  have hpool : ∀ x ∈ (pool rows).insertionSort poolLe, rowKey x ∉ hot_ids rows := by
    intro x hx
    exact mem_pool_not_hot (((List.perm_insertionSort poolLe (pool rows)).mem_iff).mp hx)
  by_cases hc : ((((pool rows).insertionSort poolLe).take 12)).length < 12
  · rw [if_pos hc] at hg
    rcases backfill_mem _ _ _ _ hg with h | ⟨h, hk⟩
    · exact hpool g (List.mem_of_mem_take h)
    · exact hk
  · rw [if_neg hc] at hg
    exact hpool g (List.mem_of_mem_take hg)

/-- Claim C1, witness for the amended statement: the single OVERLOOKED row of
`rows13` carries an identity outside the HOT identities. -/
theorem claim_C1_amended_witness :
    rowKey (dRow "a13" 10 0) ∉ hot_ids rows13 :=
  claim_C1_amended rows13 (dRow "a13" 10 0) (by
    norm_num [gems_rows, pool, hot_ids, hot_rows, rows13, dRow, rowKey, hotLe, poolLe,
      vol24d, ttr_days, near50d, underd, backfill, decide_eq_true_eq])

/-- Claim C4, amended: the OVERLOOKED bucket of `derive_top12_from_csv.py`
has size exactly `min 12 |non-HOT rows|`; `rank_gems` of
`polymarket_enriched_fast.py` instead returns `min 12 |pool|` for its own
pool, which neither excludes Hot identities nor widens a short
moderate-volume band (see the counterexample). -/
theorem claim_C4_amended :
    (∀ rows : List DRow, (gems_rows rows).length = min 12 (pool rows).length) ∧
    (∀ rows : List ERow, (rank_gems rows).length = min 12 (gemsPool rows).length) := by
  refine ⟨gems_rows_length, fun rows => ?_⟩
  rw [rank_gems, List.length_take, sortDesc, List.length_insertionSort]

/-- Claim C10: whenever some candidate record has at least one parsed quote,
every record returned by `rank_gems` has a positive `outcomeCount`;
quote-less records are considered only when no candidate has quotes. -/
theorem claim_C10 (rows : List ERow)
    (h : ∃ r ∈ candidatesE rows, 0 < r.outcomeCount) :
    ∀ g ∈ rank_gems rows, 0 < g.outcomeCount := by
  intro g hg
  have hwq : ¬((withQuotesE rows).isEmpty = true) := by
    rcases h with ⟨r, hr, hoc⟩
    have hrw : r ∈ withQuotesE rows :=
      List.mem_filter.mpr ⟨hr, by simpa using hoc⟩
    intro hemp
    rw [List.isEmpty_iff] at hemp
    rw [hemp] at hrw
    exact List.not_mem_nil r hrw
  have hgP : g ∈ gemsPool rows := by
    have h1 : g ∈ sortDesc gemsKey (gemsPool rows) := List.mem_of_mem_take hg
    exact ((List.perm_insertionSort _ _).mem_iff).mp h1
  have hgw := mem_gemsPool_withQuotes hwq hgP
  have := (List.mem_filter.mp hgw).2
  simpa using this

/-- Claim C10, witness at the one-record collection `[r0]`. -/
theorem claim_C10_witness :
    (∃ r ∈ candidatesE [r0], 0 < r.outcomeCount) ∧
      ∀ g ∈ rank_gems [r0], 0 < g.outcomeCount := by
  have hex : ∃ r ∈ candidatesE [r0], 0 < r.outcomeCount := by
    refine ⟨r0, ?_, by norm_num [r0]⟩
    norm_num [candidatesE, r0, pyOr, decide_eq_true_eq]
  exact ⟨hex, claim_C10 [r0] hex⟩

/-- Claim C7: `near50Flag` is 1 exactly when the binary midpoint — the mean of
best bid and best ask of the target (yes) outcome, computed only when the
market is binary and both quotes are present — lies in the closed interval
`[0.40, 0.60]`; otherwise it is 0. -/
theorem claim_C7 (quotes : List Quote) :
    (near50Flag quotes = 1 ↔
      ∃ q b a, yes_target quotes = some q ∧ q.bestBid = some b ∧ q.bestAsk = some a ∧
        2/5 ≤ (b + a) / 2 ∧ (b + a) / 2 ≤ 3/5) ∧
    (near50Flag quotes = 0 ∨ near50Flag quotes = 1) := by
  constructor
  · simp only [near50Flag, binary_mid_yes]
    cases hyt : yes_target quotes with
    | none => simp
    | some q0 =>
      cases hb : q0.bestBid with
      | none => simp [midpoint, hb]
      | some b0 =>
        cases ha : q0.bestAsk with
        | none => simp [midpoint, hb, ha]
        | some a0 =>
          by_cases hin : 2/5 ≤ (b0 + a0) / 2 ∧ (b0 + a0) / 2 ≤ 3/5
          · simp [midpoint, hb, ha, hin, hin.1, hin.2]
          · simp only [midpoint, hb, ha]
            constructor
            · intro h
              rw [if_neg hin] at h
              exact absurd h (by norm_num)
            · rintro ⟨q, b, a, hq, hqb, hqa, h1, h2⟩
              obtain rfl : q0 = q := by injection hq
              rw [hb] at hqb
              rw [ha] at hqa
              obtain rfl : b0 = b := by injection hqb
              obtain rfl : a0 = a := by injection hqa
              exact absurd ⟨h1, h2⟩ hin
  · cases hmy : binary_mid_yes quotes with
    | none =>
      left
      simp [near50Flag, hmy]
    | some m =>
      by_cases hin : 2/5 ≤ m ∧ m ≤ 3/5
      · right
        simp [near50Flag, hmy, hin, hin.1, hin.2]
      · left
        simp only [near50Flag, hmy]
        rw [if_neg hin]

/-- Claim C1, counterexample: on the one-record collection `[r0]`,
`rank_hot` and `rank_gems` of `polymarket_enriched_fast.py` both return the
record, so the same identity appears in the Hot and the Overlooked list of the
same run (a one-element sort never consults the abstracted `log1p`, so the
instantiation `fun q => q` is irrelevant here). -/
theorem claim_C1_counterexample :
    r0.id ∈ (rank_hot (fun q : ℚ => q) [r0]).map ERow.id ∧
      r0.id ∈ (rank_gems [r0]).map ERow.id := by
  constructor
  · simp [rank_hot, sortDesc]
  · norm_num [rank_gems, gemsPool, poolE, poolModE, candidatesE, withQuotesE, sortDesc,
      r0, pyOr, decide_eq_true_eq]

/-- Claim C4, counterexample: on `[r0]` the record itself is the entire Hot
list, so there are zero non-Hot candidates, yet `rank_gems` still returns one
record — its output size is not `min 12 |non-Hot candidates|`. -/
theorem claim_C4_counterexample :
    (rank_gems [r0]).length = 1 ∧ (nonHotE (fun q : ℚ => q) [r0]).length = 0 ∧
      (1 : ℕ) ≠ min 12 0 := by
  refine ⟨?_, ?_, by norm_num⟩
  · norm_num [rank_gems, gemsPool, poolE, poolModE, candidatesE, withQuotesE, sortDesc,
      r0, pyOr, decide_eq_true_eq]
  · norm_num [nonHotE, rank_hot, sortDesc, r0, decide_eq_true_eq]

/-- Claim C5, amended: the scenario holds for `derive_top12_from_csv.py` — if
every non-HOT row has a 0/1 near-50 flag, exactly 3 of them are near-50, and
there are at least 12 non-HOT rows, then the OVERLOOKED bucket has exactly 12
rows and the 3 near-50 rows occupy the first ranks.  For `rank_gems` of
`polymarket_enriched_fast.py` the scenario fails (see the counterexample):
near-50 candidates outside the moderate-volume band are dropped entirely. -/
theorem claim_C5_amended (rows : List DRow)
    (h01 : ∀ r ∈ pool rows, near50d r = 0 ∨ near50d r = 1)
    (h3 : ((pool rows).filter fun r => decide (near50d r = 1)).length = 3)
    (h12 : 12 ≤ (pool rows).length) :
    (gems_rows rows).length = 12 ∧ ∀ r ∈ (gems_rows rows).take 3, near50d r = 1 := by
  have hsort : List.Sorted poolLe ((pool rows).insertionSort poolLe) :=
    List.sorted_insertionSort poolLe (pool rows)
  have hperm : List.Perm ((pool rows).insertionSort poolLe) (pool rows) :=
    List.perm_insertionSort poolLe (pool rows)
  have hlenS : ((pool rows).insertionSort poolLe).length = (pool rows).length :=
    hperm.length_eq
  have hsep : ∀ x ∈ (pool rows).insertionSort poolLe, ∀ y ∈ (pool rows).insertionSort poolLe,
      (decide (near50d x = 1)) = true → (decide (near50d y = 1)) = false → ¬poolLe y x := by
    intro x hx y hy hPx hPy
    have hx1 : near50d x = 1 := by simpa using hPx
    have hy1 : ¬near50d y = 1 := by simpa using hPy
    have hy0 : near50d y = 0 := (h01 y (hperm.mem_iff.mp hy)).resolve_right hy1
    intro hle
    rcases hle with h | ⟨h, _⟩
    · rw [hx1, hy0] at h
      norm_num at h
    · rw [hx1, hy0] at h
      norm_num at h
  have hsplit := sorted_split (fun r => decide (near50d r = 1)) hsort hsep
  have hFlen : (((pool rows).insertionSort poolLe).filter
      fun r => decide (near50d r = 1)).length = 3 := by
    rw [(hperm.filter fun r => decide (near50d r = 1)).length_eq, h3]
  have htake3 : ((pool rows).insertionSort poolLe).take 3 =
      ((pool rows).insertionSort poolLe).filter fun r => decide (near50d r = 1) := by
    conv_lhs => rw [hsplit]
    exact List.take_left' hFlen
  have hl : ((((pool rows).insertionSort poolLe).take 12)).length = 12 := by
    rw [List.length_take, hlenS]
    exact Nat.min_eq_left h12
  have hgems : gems_rows rows = ((pool rows).insertionSort poolLe).take 12 := by
    rw [gems_rows, if_neg (by rw [hl]; exact lt_irrefl 12)]
  constructor
  · rw [hgems, hl]
  · intro r hr
    rw [hgems, List.take_take] at hr
    norm_num at hr
    rw [htake3] at hr
    have := (List.mem_filter.mp hr).2
    simpa using this

/-- Claim C5, witness for the amended statement on the concrete 24-row input
`rows24`. -/
theorem claim_C5_amended_witness :
    (gems_rows rows24).length = 12 ∧ ∀ r ∈ (gems_rows rows24).take 3, near50d r = 1 := by
  have hpool : pool rows24 =
      [dRow "n1" 50 1, dRow "n2" 50 1, dRow "n3" 50 1,
       dRow "p1" 50 0, dRow "p2" 50 0, dRow "p3" 50 0, dRow "p4" 50 0,
       dRow "p5" 50 0, dRow "p6" 50 0, dRow "p7" 50 0, dRow "p8" 50 0,
       dRow "p9" 50 0] := by
    norm_num [pool, hot_ids, hot_rows, rows24, dRow, rowKey, hotLe,
      vol24d, ttr_days, decide_eq_true_eq]
    refine ⟨?_, ?_, ?_, ?_, ?_, ?_, ?_, ?_, ?_, ?_, ?_, ?_⟩ <;> simp
  refine claim_C5_amended rows24 ?_ ?_ ?_
  · rw [hpool]
    intro r hr
    fin_cases hr <;> norm_num [near50d, dRow]
  · rw [hpool]
    norm_num [near50d, dRow, decide_eq_true_eq]
  · rw [hpool]
    norm_num

set_option maxHeartbeats 4000000 in
/-- Claim C5, counterexample for `rank_gems` of `polymarket_enriched_fast.py`:
`rows35` has exactly 3 near-50 non-Hot candidates and exactly 20
moderate-volume non-Hot candidates (for every instantiation of the abstracted
`log1p`; `fun q => q` is strictly monotone like the real one, and all 35 rows
share the same volume, so the Hot ordering is independent of it), yet
`rank_gems` returns 12 records whose first entry is not near-50: the near-50
candidates sit outside the moderate-volume band and are dropped entirely. -/
theorem claim_C5_counterexample :
    StrictMono (fun q : ℚ => q) ∧
    ((nonHotE (fun q : ℚ => q) rows35).filter fun r =>
        decide (r.near50Flag = 1)).length = 3 ∧
    ((nonHotE (fun q : ℚ => q) rows35).filter fun r =>
        decide (1500 ≤ pyOr r.volume24h 0) && decide (pyOr r.volume24h 0 ≤ 200000) &&
          decide (r.near50Flag ≠ 1)).length = 20 ∧
    (rank_gems rows35).length = 12 ∧
    (rank_gems rows35).head?.map ERow.near50Flag = some 0 := by
  have hhot : rank_hot (fun q : ℚ => q) rows35 =
      [hRow "h01", hRow "h02", hRow "h03", hRow "h04", hRow "h05", hRow "h06",
       hRow "h07", hRow "h08", hRow "h09", hRow "h10", hRow "h11", hRow "h12"] := by
    norm_num [rank_hot, sortDesc, hotKey, pyOr, rows35, hRow, nRow, mRow]
  have hnon : nonHotE (fun q : ℚ => q) rows35 =
      [nRow "n1", nRow "n2", nRow "n3",
       mRow "m01", mRow "m02", mRow "m03", mRow "m04", mRow "m05", mRow "m06",
       mRow "m07", mRow "m08", mRow "m09", mRow "m10", mRow "m11", mRow "m12",
       mRow "m13", mRow "m14", mRow "m15", mRow "m16", mRow "m17", mRow "m18",
       mRow "m19", mRow "m20"] := by
    rw [nonHotE, hhot]
    norm_num [rows35, hRow, nRow, mRow, decide_eq_true_eq]
    simp
  have hgems : rank_gems rows35 =
      [mRow "m01", mRow "m02", mRow "m03", mRow "m04", mRow "m05", mRow "m06",
       mRow "m07", mRow "m08", mRow "m09", mRow "m10", mRow "m11", mRow "m12"] := by
    norm_num [rank_gems, gemsPool, poolE, poolModE, candidatesE, withQuotesE, sortDesc,
      gemsKey, pyOr, rows35, hRow, nRow, mRow, decide_eq_true_eq]
  refine ⟨fun a b h => h, ?_, ?_, ?_, ?_⟩
  · rw [hnon]
    norm_num [nRow, mRow, decide_eq_true_eq]
  · rw [hnon]
    norm_num [nRow, mRow, pyOr, decide_eq_true_eq]
  · rw [hgems]
    norm_num
  · rw [hgems]
    norm_num [mRow]

end PolyDash
